import Mathlib

/-!
Verification development for the graph-plugin platform
(`api/models/graph.py`, `api/models/node.py`, `api/models/edge.py`,
`project_platform/plugin_manager.py`).

Python dictionaries are embedded as association lists with Python's
update-in-place semantics (inserting an existing key keeps its position
and replaces the value; a new key is appended).  Exceptions are embedded
as `Except String` or as explicit post-states paired with an optional
error message.  Attribute values are abstracted to strings.
-/

namespace SokGraph

/-- A Python `dict` keyed by strings: an association list in insertion order
(keys are unique in any dict the code builds). -/
abbrev AList (α : Type) : Type := List (String × α)

/-- Embeds `k in d` for a Python dict. -/
def alContains {α : Type} : AList α → String → Bool
  | [], _ => false
  | p :: d, k => p.1 == k || alContains d k

/-- Embeds `d.get(k)` for a Python dict. -/
def alGet {α : Type} : AList α → String → Option α
  | [], _ => none
  | p :: d, k => if p.1 == k then some p.2 else alGet d k

/-- Embeds `d[k] = v` for a Python dict: replace the value in place if the key is
present (keys are unique, so the first hit is the only one), else append. -/
def alInsert {α : Type} : AList α → String → α → AList α
  | [], k, v => [(k, v)]
  | p :: d, k, v => if p.1 == k then (k, v) :: d else p :: alInsert d k v

/-- Embeds `list(d.keys())` for a Python dict. -/
def alKeys {α : Type} (d : AList α) : List String :=
  d.map (fun p => p.1)

/-- Embeds `list(d.values())` for a Python dict. -/
def alValues {α : Type} (d : AList α) : List α :=
  d.map (fun p => p.2)

theorem alInsert_contains {α : Type} (d : AList α) (k k' : String) (v : α) :
    alContains (alInsert d k v) k' = (alContains d k' || k == k') := by
  induction d with
  | nil => simp [alInsert, alContains, Bool.beq_comm]
  | cons p d ih =>
    by_cases hpk : p.1 == k
    · have hk : p.1 = k := eq_of_beq hpk
      by_cases hkk : k == k'
      · simp [alInsert, alContains, hpk, hk, hkk]
      · simp [alInsert, alContains, hpk, hk, hkk]
    · simp [alInsert, alContains, hpk, ih, Bool.or_assoc]

theorem alInsert_get_self {α : Type} (d : AList α) (k : String) (v : α) :
    alGet (alInsert d k v) k = some v := by
  induction d with
  | nil => simp [alInsert, alGet]
  | cons p d ih =>
    by_cases hpk : p.1 == k
    · simp [alInsert, alGet, hpk]
    · simp [alInsert, alGet, hpk, ih]

theorem alInsert_keys_of_contains {α : Type} (d : AList α) (k : String) (v : α)
    (h : alContains d k = true) : alKeys (alInsert d k v) = alKeys d := by
  induction d with
  | nil => simp [alContains] at h
  | cons p d ih =>
    by_cases hpk : p.1 == k
    · have hk : p.1 = k := eq_of_beq hpk
      simp [alInsert, alKeys, hpk, hk]
    · simp only [alContains, hpk, Bool.false_or] at h
      simp [alInsert, alKeys, hpk, ih h, alKeys] at *
      exact ih h

/-! ## The graph data model (`node.py`, `edge.py`, `graph.py`). -/

/-- Embeds `Node` from `api/models/node.py`: an id and an attribute dict. -/
structure Node where
  id : String
  attributes : AList String
  deriving Repr, DecidableEq

/-- Embeds `Edge` from `api/models/edge.py`: id, source and target node ids, attributes. -/
structure Edge where
  id : String
  source : String
  target : String
  attributes : AList String
  deriving Repr, DecidableEq

/-- Embeds `Graph` from `api/models/graph.py`: directed flag plus node and edge dicts. -/
structure Graph where
  directed : Bool
  nodes : AList Node
  edges : AList Edge
  deriving Repr, DecidableEq

/-- Embeds `Graph.__init__`. -/
def Graph.empty (directed : Bool) : Graph :=
  { directed := directed, nodes := [], edges := [] }

/-- Embeds `Graph.add_node`: `self.nodes[node.id] = node`, never fails. -/
def Graph.addNode (g : Graph) (n : Node) : Graph :=
  { g with nodes := alInsert g.nodes n.id n }

/-- Embeds `Graph.add_edge`, run as a state transformer: the resulting graph is the
graph after the call (unchanged when the `ValueError` is raised), paired with
the raised message, if any.  Mirrors the source: the source endpoint is
checked first, then the target, and only then is the edge stored. -/
def Graph.addEdgeRun (g : Graph) (e : Edge) : Graph × Option String :=
  if ¬ alContains g.nodes e.source then
    (g, some "Source node does not exist.")
  else if ¬ alContains g.nodes e.target then
    (g, some "Target node does not exist.")
  else
    ({ g with edges := alInsert g.edges e.id e }, none)

/-- Embeds `Graph.get_node`: `self.nodes.get(node_id)`. -/
def Graph.getNode (g : Graph) (nodeId : String) : Option Node :=
  alGet g.nodes nodeId

/-- Embeds `Graph.get_edges`: `list(self.edges.values())`. -/
def Graph.getEdges (g : Graph) : List Edge :=
  alValues g.edges

/-- Embeds `GraphBuilder` from `api/models/graph.py`: directed flag plus staged
node and edge dicts. -/
structure GraphBuilder where
  directed : Bool
  nodes : AList Node
  edges : AList Edge
  deriving Repr, DecidableEq

/-- Embeds `GraphBuilder.__init__` (also `Graph.builder`). -/
def GraphBuilder.empty (directed : Bool) : GraphBuilder :=
  { directed := directed, nodes := [], edges := [] }

/-- Embeds `GraphBuilder.add_node`: builds `Node(node_id, properties)` and stages it
under `node_id`; total, returns the builder. -/
def GraphBuilder.addNode (b : GraphBuilder) (nodeId : String)
    (properties : AList String) : GraphBuilder :=
  { b with nodes := alInsert b.nodes nodeId ⟨nodeId, properties⟩ }

/-- Embeds `GraphBuilder.add_edge`: builds `Edge(edge_id, source_id, target_id,
properties)` and stages it under `edge_id`; total, no endpoint check. -/
def GraphBuilder.addEdge (b : GraphBuilder) (edgeId sourceId targetId : String)
    (properties : AList String) : GraphBuilder :=
  { b with edges := alInsert b.edges edgeId ⟨edgeId, sourceId, targetId, properties⟩ }

/-- Replaying staged nodes into a graph: the first loop of `GraphBuilder.build`. -/
def replayNodes (g : Graph) (ns : List Node) : Graph :=
  ns.foldl Graph.addNode g

/-- Replaying staged edges into a graph: the second loop of
`GraphBuilder.build`; the first `ValueError` aborts the loop and propagates. -/
def replayEdges (g : Graph) : List Edge → Except String Graph
  | [] => .ok g
  | e :: rest =>
    match Graph.addEdgeRun g e with
    | (_, some msg) => .error msg
    | (g', none) => replayEdges g' rest

/-- Embeds `GraphBuilder.build`: a fresh `Graph`, nodes replayed first, then edges;
returns the graph or the first raised `ValueError` message. -/
def GraphBuilder.build (b : GraphBuilder) : Except String Graph :=
  replayEdges (replayNodes (Graph.empty b.directed) (alValues b.nodes)) (alValues b.edges)

/-- Embeds `GraphBuilder.build` as a state transformer on the builder itself: the
method only reads `self._directed`, `self._nodes`, `self._edges` and assigns
to none of them, so the builder after the call is the builder before it. -/
def GraphBuilder.buildRun (b : GraphBuilder) : GraphBuilder × Except String Graph :=
  (b, b.build)

/-! ## Object-identity (heap) model of the builder.

`GraphBuilder.add_node` executes `Node(node_id, properties)`: the Python
object is allocated at staging time.  `build()` then passes that same object
to `graph.add_node`, which stores the reference.  To reason about sharing of
entities across graphs, nodes and edges here carry an allocation number
(`ref`), attributes live in a separate store keyed by `ref`, and staging
allocates a fresh `ref`. -/

/-- A `Node` object: its `id` field plus its heap identity. -/
structure HNode where
  id : String
  ref : Nat
  deriving Repr, DecidableEq

/-- An `Edge` object: id, endpoints, heap identity. -/
structure HEdge where
  id : String
  source : String
  target : String
  ref : Nat
  deriving Repr, DecidableEq

/-- The attribute store: heap identity to mutable attribute dict. -/
abbrev Store : Type := List (Nat × AList String)

def stGet : Store → Nat → Option (AList String)
  | [], _ => none
  | p :: s, r => if p.1 == r then some p.2 else stGet s r

def stSet : Store → Nat → AList String → Store
  | [], r, a => [(r, a)]
  | p :: s, r, a => if p.1 == r then (r, a) :: s else p :: stSet s r a

/-- Embeds `GraphBuilder` in the heap model, with the allocation counter. -/
structure HBuilder where
  directed : Bool
  nodes : AList HNode
  edges : AList HEdge
  alloc : Nat
  deriving Repr, DecidableEq

/-- Embeds `Graph` in the heap model. -/
structure HGraph where
  directed : Bool
  nodes : AList HNode
  edges : AList HEdge
  deriving Repr, DecidableEq

def HBuilder.empty (directed : Bool) : HBuilder :=
  { directed := directed, nodes := [], edges := [], alloc := 0 }

/-- Embeds `GraphBuilder.add_node`: allocates `Node(node_id, properties)` and stages
the reference; the properties go to the store under the fresh `ref`. -/
def HBuilder.addNode (b : HBuilder) (st : Store) (nodeId : String)
    (properties : AList String) : HBuilder × Store :=
  ({ b with nodes := alInsert b.nodes nodeId ⟨nodeId, b.alloc⟩,
            alloc := b.alloc + 1 },
   stSet st b.alloc properties)

/-- Embeds `GraphBuilder.add_edge`: allocates `Edge(...)` and stages the reference. -/
def HBuilder.addEdge (b : HBuilder) (st : Store)
    (edgeId sourceId targetId : String) (properties : AList String) :
    HBuilder × Store :=
  ({ b with edges := alInsert b.edges edgeId ⟨edgeId, sourceId, targetId, b.alloc⟩,
            alloc := b.alloc + 1 },
   stSet st b.alloc properties)

/-- Embeds `Graph.add_node` in the heap model: stores the node object itself. -/
def HGraph.addNode (g : HGraph) (n : HNode) : HGraph :=
  { g with nodes := alInsert g.nodes n.id n }

/-- Embeds `Graph.add_edge` in the heap model, same endpoint checks as the source. -/
def HGraph.addEdgeRun (g : HGraph) (e : HEdge) : HGraph × Option String :=
  if ¬ (g.nodes.any (fun p => p.1 == e.source)) then
    (g, some "Source node does not exist.")
  else if ¬ (g.nodes.any (fun p => p.1 == e.target)) then
    (g, some "Target node does not exist.")
  else
    ({ g with edges := alInsert g.edges e.id e }, none)

def hReplayEdges (g : HGraph) : List HEdge → Except String HGraph
  | [] => .ok g
  | e :: rest =>
    match HGraph.addEdgeRun g e with
    | (_, some msg) => .error msg
    | (g', none) => hReplayEdges g' rest

/-- Embeds `GraphBuilder.build` in the heap model: a fresh `Graph` whose dicts are
filled with the staged objects (the references, not copies). -/
def HBuilder.build (b : HBuilder) : Except String HGraph :=
  hReplayEdges
    ((alValues b.nodes).foldl HGraph.addNode
      { directed := b.directed, nodes := [], edges := [] })
    (alValues b.edges)

/-- What a caller sees when reading a node's attributes through a graph:
`graph.nodes[key].attributes`. -/
def HGraph.observeNode (g : HGraph) (st : Store) (key : String) :
    Option (AList String) :=
  match alGet g.nodes key with
  | some n => stGet st n.ref
  | none => none

/-- In-place mutation of a node object's attributes through a graph:
`graph.nodes[key].attributes[attrKey] = value`. -/
def HGraph.mutateNode (g : HGraph) (st : Store) (key attrKey value : String) :
    Store :=
  match alGet g.nodes key with
  | some n =>
    match stGet st n.ref with
    | some attrs => stSet st n.ref (alInsert attrs attrKey value)
    | none => st
  | none => st

/-! ## The plugin registry (`project_platform/plugin_manager.py`).

`issubclass`, `inspect.isclass`, `inspect.isabstract` and the structural
shape of a candidate are modelled as observable attributes of a class
object; a constructor is a function from keyword arguments to an optional
instance (`none` means construction raised). -/

/-- A Python class object as `_scan_module` inspects it.  `subDS`/`subVZ`
are the results of `issubclass(obj, DataSourcePlugin)` /
`issubclass(obj, VisualizerPlugin)`; `isDSContract`/`isVZContract` say the
object is the contract class itself; `hasParse`/`hasGetName`/`hasRender`
record which capability methods the type implements (structural shape, not
consulted by the scanner); `checkRaises` records that the `issubclass`
checks raised; `ctor` is construction with keyword arguments, `none` when
`__init__` raises. -/
structure PyClass where
  name : String
  isClass : Bool
  subDS : Bool
  subVZ : Bool
  isDSContract : Bool
  isVZContract : Bool
  isAbstract : Bool
  hasParse : Bool
  hasGetName : Bool
  hasRender : Bool
  checkRaises : Bool
  ctor : AList String → Option Nat

/-- A module inside a plugin package: import success flag and its members. -/
structure PyModule where
  name : String
  importOk : Bool
  members : List PyClass

/-- A folder under the `plugins` directory. -/
structure PluginFolder where
  name : String
  hasInit : Bool
  importOk : Bool
  modules : List PyModule

/-- The filesystem as discovery sees it. -/
structure Env where
  dirExists : Bool
  folders : List PluginFolder

/-- Embeds `PluginManager` instance state: the two registries, the `_loaded` and
`_initialized` flags, and `scanCount`, a ghost counter of how many times the
filesystem scan body actually ran. -/
structure PM where
  dataPlugins : AList PyClass
  visPlugins : AList PyClass
  loaded : Bool
  initialized : Bool
  scanCount : Nat

/-- Embeds `PluginManager._scan_module`: for each member that is a class, register
it in the data registry iff `issubclass(obj, DataSourcePlugin)` holds, the
object is not `DataSourcePlugin` itself and it is not abstract, under the
key `module_name.ClassName`; independently likewise for the visualizer
registry; an exception in the checks skips the member. -/
def scanModule (st : PM) (moduleName : String) (members : List PyClass) : PM :=
  members.foldl (fun st c =>
    if ¬ c.isClass then st
    else if c.checkRaises then st
    else
      let st1 :=
        if c.subDS && !c.isDSContract && !c.isAbstract then
          { st with dataPlugins :=
              alInsert st.dataPlugins (moduleName ++ "." ++ c.name) c }
        else st
      if c.subVZ && !c.isVZContract && !c.isAbstract then
        { st1 with visPlugins :=
            alInsert st1.visPlugins (moduleName ++ "." ++ c.name) c }
      else st1) st

/-- Embeds `PluginManager._scan_package`: scan each submodule, a failed import is
isolated and contributes nothing. -/
def scanPackage (st : PM) (f : PluginFolder) : PM :=
  f.modules.foldl (fun st m =>
    if ¬ m.importOk then st
    else scanModule st (f.name ++ "." ++ m.name) m.members) st

/-- The scanning body of `PluginManager._load_plugins`: missing plugin dir
means nothing to do; folders without `__init__.py` are skipped; a folder
whose package import fails contributes nothing. -/
def doScan (env : Env) (st : PM) : PM :=
  if ¬ env.dirExists then st
  else env.folders.foldl (fun st f =>
    if ¬ f.hasInit then st
    else if ¬ f.importOk then st
    else scanPackage st f) st

/-- Embeds `PluginManager._load_plugins`: a no-op when `_loaded`, otherwise runs
the scan once and sets `_loaded`; `scanCount` counts the scan runs. -/
def loadPlugins (env : Env) (st : PM) : PM :=
  if st.loaded then st
  else { doScan env st with loaded := true, scanCount := st.scanCount + 1 }

/-- Embeds `PluginManager.get_data_source_plugins`. -/
def getDataSourcePlugins (env : Env) (st : PM) : PM × AList PyClass :=
  let st' := loadPlugins env st
  (st', st'.dataPlugins)

/-- Embeds `PluginManager.get_visualizer_plugins`. -/
def getVisualizerPlugins (env : Env) (st : PM) : PM × AList PyClass :=
  let st' := loadPlugins env st
  (st', st'.visPlugins)

/-- Embeds `PluginManager.get_data_plugin_class`. -/
def getDataPluginClass (env : Env) (st : PM) (name : String) :
    PM × Option PyClass :=
  let st' := loadPlugins env st
  (st', alGet st'.dataPlugins name)

/-- Embeds `PluginManager.get_visualizer_plugin_class`. -/
def getVisualizerPluginClass (env : Env) (st : PM) (name : String) :
    PM × Option PyClass :=
  let st' := loadPlugins env st
  (st', alGet st'.visPlugins name)

/-- Embeds `PluginManager.instantiate_data_plugin`: look the class up (loading if
needed); an unknown key or a constructor exception both yield `none`; a
successful construction yields the instance. -/
def instantiateDataPlugin (env : Env) (st : PM) (name : String)
    (kwargs : AList String) : PM × Option Nat :=
  match getDataPluginClass env st name with
  | (st', some c) =>
    match c.ctor kwargs with
    | some v => (st', some v)
    | none => (st', none)
  | (st', none) => (st', none)

/-- Embeds `PluginManager.get_all_plugin_info`: loads, then reads both registries. -/
def getAllPluginInfo (env : Env) (st : PM) :
    PM × (List (String × String) × List (String × String)) :=
  let st' := loadPlugins env st
  (st', (st'.dataPlugins.map (fun p => (p.1, p.2.name)),
         st'.visPlugins.map (fun p => (p.1, p.2.name))))

/-- The query/lookup/instantiate operations of the registry. -/
inductive POp : Type
  | getDataSrc : POp
  | getVis : POp
  | getDataClass : String → POp
  | getVisClass : String → POp
  | instData : String → AList String → POp
  | getAllInfo : POp

/-- The state effect of one registry operation. -/
def runOp (env : Env) (st : PM) : POp → PM
  | .getDataSrc => (getDataSourcePlugins env st).1
  | .getVis => (getVisualizerPlugins env st).1
  | .getDataClass n => (getDataPluginClass env st n).1
  | .getVisClass n => (getVisualizerPluginClass env st n).1
  | .instData n kw => (instantiateDataPlugin env st n kw).1
  | .getAllInfo => (getAllPluginInfo env st).1

/-- The state effect of a whole sequence of registry operations. -/
def runOps (env : Env) (st : PM) (ops : List POp) : PM :=
  ops.foldl (runOp env) st

/-! ## The `PluginManager` singleton (`__new__` / `__init__`). -/

/-- Class-level state: the `_instance` class attribute, holding the single
object's identity and current instance state, if one was ever made. -/
structure PMClass where
  inst : Option (Nat × PM)

/-- The bare object `__new__` creates: no instance attributes yet, so
`_initialized` reads the class attribute `False`. -/
def pmNewObj : PM :=
  { dataPlugins := [], visPlugins := [], loaded := false,
    initialized := false, scanCount := 0 }

/-- Embeds `PluginManager.__init__`: returns immediately when `_initialized`,
otherwise sets empty registries, `_loaded = False`, `_initialized = True`. -/
def pmInit (obj : PM) : PM :=
  if obj.initialized then obj
  else { dataPlugins := [], visPlugins := [], loaded := false,
         initialized := true, scanCount := obj.scanCount }

/-- Embeds `PluginManager()`: `__new__` reuses `_instance` when it exists (the
first call allocates object `0`), then `__init__` runs on that object.
Returns the class state, the returned object's identity, and its state. -/
def pmConstruct (cs : PMClass) : PMClass × Nat × PM :=
  match cs.inst with
  | none =>
    let obj := pmInit pmNewObj
    (⟨some (0, obj)⟩, 0, obj)
  | some (r, obj) =>
    let obj' := pmInit obj
    (⟨some (r, obj')⟩, r, obj')

/-! ## Staging operation sequences and auxiliary definitions. -/

/-- One staging call on a `GraphBuilder`. -/
inductive BOp : Type
  | node : String → AList String → BOp
  | edge : String → String → String → AList String → BOp

/-- Executing one staging call; both calls are total in the source. -/
def applyOp (b : GraphBuilder) : BOp → GraphBuilder
  | .node i p => b.addNode i p
  | .edge i s t p => b.addEdge i s t p

/-- Executing a sequence of staging calls. -/
def applyOps (b : GraphBuilder) (ops : List BOp) : GraphBuilder :=
  ops.foldl applyOp b

/-- Tests whether `pat` occurs at the front of `s`. -/
def listHasPre : List Char → List Char → Bool
  | _, [] => true
  | [], _ :: _ => false
  | a :: s, b :: t => a == b && listHasPre s t

/-- Tests whether `pat` occurs somewhere in `s`. -/
def listHasSub : List Char → List Char → Bool
  | [], pat => pat.isEmpty
  | a :: s, pat => listHasPre (a :: s) pat || listHasSub s pat

/-- Substring test on strings (does `s` contain `sub`?). -/
def strHasSub (s sub : String) : Bool :=
  listHasSub s.data sub.data

/-- An edge `Graph.add_edge` would reject against the given node dict. -/
def isOffending (nodes : AList Node) (e : Edge) : Bool :=
  !(alContains nodes e.source) || !(alContains nodes e.target)

/-- The first staged edge (in staging order) that `Graph.add_edge` would
reject against the given node dict. -/
def firstOffender (nodes : AList Node) : List Edge → Option Edge
  | [] => none
  | e :: rest =>
    if isOffending nodes e then some e else firstOffender nodes rest

/-- The `ValueError` message `Graph.add_edge` raises for an offending edge:
the source endpoint is checked first. -/
def offendMsg (nodes : AList Node) (e : Edge) : String :=
  if alContains nodes e.source then "Target node does not exist."
  else "Source node does not exist."

/-! ## Basic lemmas about the embedded operations. -/

theorem mem_alInsert {α : Type} (d : AList α) (k : String) (v : α)
    (p : String × α) (h : p ∈ alInsert d k v) : p = (k, v) ∨ p ∈ d := by
  induction d with
  | nil => simpa [alInsert] using h
  | cons q d ih =>
    by_cases hq : q.1 == k
    · simp only [alInsert, hq, if_pos, List.mem_cons] at h
      rcases h with h | h
      · exact Or.inl h
      · exact Or.inr (List.mem_cons_of_mem q h)
    · simp only [alInsert, hq, Bool.false_eq_true, if_neg, not_false_iff,
        List.mem_cons] at h
      rcases h with h | h
      · exact Or.inr (by simp [h])
      · rcases ih h with h' | h'
        · exact Or.inl h'
        · exact Or.inr (List.mem_cons_of_mem q h')

theorem Graph.addEdgeRun_fail_iff (g : Graph) (e : Edge) :
    (Graph.addEdgeRun g e).2 ≠ none ↔
      (alContains g.nodes e.source = false ∨ alContains g.nodes e.target = false) := by
  unfold Graph.addEdgeRun
  by_cases hs : alContains g.nodes e.source
  · by_cases ht : alContains g.nodes e.target
    · simp [hs, ht]
    · simp only [Bool.not_eq_true] at ht
      simp [hs, ht]
  · simp only [Bool.not_eq_true] at hs
    simp [hs]

theorem Graph.addEdgeRun_fail_state (g : Graph) (e : Edge)
    (h : (Graph.addEdgeRun g e).2 ≠ none) : (Graph.addEdgeRun g e).1 = g := by
  unfold Graph.addEdgeRun at *
  by_cases hs : alContains g.nodes e.source
  · by_cases ht : alContains g.nodes e.target
    · simp [hs, ht] at h
    · simp [hs, ht]
  · simp [hs]

theorem Graph.addEdgeRun_ok_state (g : Graph) (e : Edge)
    (h : (Graph.addEdgeRun g e).2 = none) :
    (Graph.addEdgeRun g e).1 = { g with edges := alInsert g.edges e.id e } := by
  unfold Graph.addEdgeRun at *
  by_cases hs : alContains g.nodes e.source
  · by_cases ht : alContains g.nodes e.target
    · simp [hs, ht]
    · simp [hs, ht] at h
  · simp [hs] at h

theorem Graph.addEdgeRun_nodes (g : Graph) (e : Edge) :
    (Graph.addEdgeRun g e).1.nodes = g.nodes := by
  unfold Graph.addEdgeRun
  by_cases hs : alContains g.nodes e.source
  · by_cases ht : alContains g.nodes e.target
    · simp [hs, ht]
    · simp [hs, ht]
  · simp [hs]

theorem Graph.addEdgeRun_msg (g : Graph) (e : Edge) (m : String)
    (h : (Graph.addEdgeRun g e).2 = some m) :
    m = "Source node does not exist." ∨ m = "Target node does not exist." := by
  unfold Graph.addEdgeRun at h
  by_cases hs : alContains g.nodes e.source
  · by_cases ht : alContains g.nodes e.target
    · simp [hs, ht] at h
    · simp [hs, ht] at h
      exact Or.inr h.symm
  · simp [hs] at h
    exact Or.inl h.symm

theorem replayNodes_edges (g : Graph) (ns : List Node) :
    (replayNodes g ns).edges = g.edges := by
  induction ns generalizing g with
  | nil => rfl
  | cons n ns ih => simpa [replayNodes, Graph.addNode] using ih _

theorem replayNodes_contains (g : Graph) (ns : List Node) (k : String) :
    alContains (replayNodes g ns).nodes k =
      (alContains g.nodes k || ns.any (fun n => n.id == k)) := by
  induction ns generalizing g with
  | nil => simp [replayNodes]
  | cons n ns ih =>
    simp only [replayNodes, List.foldl_cons, List.any_cons]
    rw [show (List.foldl Graph.addNode (g.addNode n) ns) = replayNodes (g.addNode n) ns from rfl]
    rw [ih]
    simp [Graph.addNode, alInsert_contains, Bool.or_assoc, Bool.or_comm,
      Bool.or_left_comm]

/-- In a dict whose values carry their own key (`node.id == key`, true of
every dict `GraphBuilder.add_node` maintains), scanning the values for an id
is scanning the keys. -/
theorem values_any_id_eq_contains (d : AList Node) (k : String)
    (h : ∀ p ∈ d, (p.2).id = p.1) :
    (alValues d).any (fun n => n.id == k) = alContains d k := by
  induction d with
  | nil => simp [alValues, alContains]
  | cons p d ih =>
    simp only [alValues, List.map_cons, List.any_cons, alContains]
    rw [h p (List.mem_cons_self p d)]
    rw [show (List.any (List.map (fun p => p.2) d) fun n => n.id == k)
          = (alValues d).any (fun n => n.id == k) from rfl]
    rw [ih (fun q hq => h q (List.mem_cons_of_mem p hq))]

/-- Staged node dicts map each key to a node with that id. -/
def nodesWF (b : GraphBuilder) : Prop :=
  ∀ p ∈ b.nodes, (p.2).id = p.1

theorem applyOp_nodesWF (b : GraphBuilder) (op : BOp) (h : nodesWF b) :
    nodesWF (applyOp b op) := by
  cases op with
  | node i props =>
    intro p hp
    rcases mem_alInsert _ _ _ _ hp with h' | h'
    · simp [h']
    · exact h p h'
  | edge i s t props => exact h

theorem applyOps_nodesWF (ops : List BOp) (b : GraphBuilder) (h : nodesWF b) :
    nodesWF (applyOps b ops) := by
  induction ops generalizing b with
  | nil => exact h
  | cons op ops ih => exact ih _ (applyOp_nodesWF b op h)

theorem Graph.addEdgeRun_ok_endpoints (g : Graph) (e : Edge)
    (h : (Graph.addEdgeRun g e).2 = none) :
    alContains g.nodes e.source = true ∧ alContains g.nodes e.target = true := by
  unfold Graph.addEdgeRun at h
  by_cases hs : alContains g.nodes e.source
  · by_cases ht : alContains g.nodes e.target
    · exact ⟨hs, ht⟩
    · simp [hs, ht] at h
  · simp [hs] at h

theorem replayEdges_ok_iff (es : List Edge) (g : Graph) :
    (∃ g', replayEdges g es = .ok g') ↔
      ∀ e ∈ es, alContains g.nodes e.source = true ∧ alContains g.nodes e.target = true := by
  induction es generalizing g with
  | nil => simp [replayEdges]
  | cons e es ih =>
    rcases hrun : Graph.addEdgeRun g e with ⟨g1, m?⟩
    have hnodes : g1.nodes = g.nodes := by
      have h0 := Graph.addEdgeRun_nodes g e
      rw [hrun] at h0
      exact h0
    cases m? with
    | some m =>
      simp only [replayEdges, hrun]
      constructor
      · rintro ⟨g', hg'⟩
        simp at hg'
      · intro h
        exfalso
        have hok := h e (List.mem_cons_self e es)
        have hfail := (Graph.addEdgeRun_fail_iff g e).mp (by rw [hrun]; simp)
        rcases hfail with hf | hf
        · rw [hok.1] at hf; cases hf
        · rw [hok.2] at hf; cases hf
    | none =>
      simp only [replayEdges, hrun]
      constructor
      · rintro hex e' he'
        rcases List.mem_cons.mp he' with rfl | hmem
        · exact Graph.addEdgeRun_ok_endpoints g e' (by rw [hrun])
        · have := (ih g1).mp hex e' hmem
          rwa [hnodes] at this
      · intro h
        refine (ih g1).mpr ?_
        intro e' he'
        rw [hnodes]
        exact h e' (List.mem_cons_of_mem e he')

theorem replayEdges_error_msg (es : List Edge) (g : Graph) (m : String)
    (h : replayEdges g es = .error m) :
    m = "Source node does not exist." ∨ m = "Target node does not exist." := by
  induction es generalizing g with
  | nil => simp [replayEdges] at h
  | cons e es ih =>
    rcases hrun : Graph.addEdgeRun g e with ⟨g1, m?⟩
    cases m? with
    | some m' =>
      simp only [replayEdges, hrun] at h
      have hm : m' = m := by simpa using h
      subst hm
      exact Graph.addEdgeRun_msg g e m' (by rw [hrun])
    | none =>
      simp only [replayEdges, hrun] at h
      exact ih g1 h

theorem Graph.addEdgeRun_offending (g : Graph) (e : Edge)
    (h : isOffending g.nodes e = true) :
    (Graph.addEdgeRun g e).2 = some (offendMsg g.nodes e) := by
  unfold Graph.addEdgeRun offendMsg
  by_cases hs : alContains g.nodes e.source
  · by_cases ht : alContains g.nodes e.target
    · simp [isOffending, hs, ht] at h
    · simp [hs, ht]
  · simp [hs]

theorem Graph.addEdgeRun_not_offending (g : Graph) (e : Edge)
    (h : isOffending g.nodes e = false) :
    (Graph.addEdgeRun g e).2 = none := by
  have h' : alContains g.nodes e.source = true ∧ alContains g.nodes e.target = true := by
    simpa [isOffending] using h
  unfold Graph.addEdgeRun
  simp [h'.1, h'.2]

theorem replayEdges_error_at_first (es : List Edge) (g : Graph) (e : Edge)
    (h : firstOffender g.nodes es = some e) :
    replayEdges g es = .error (offendMsg g.nodes e) := by
  induction es generalizing g with
  | nil => simp [firstOffender] at h
  | cons e' rest ih =>
    by_cases hoff : isOffending g.nodes e' = true
    · have he : e' = e := by
        simp only [firstOffender, hoff, if_pos, Option.some.injEq] at h
        exact h
      subst he
      have hmsg := Graph.addEdgeRun_offending g e' hoff
      rcases hrun : Graph.addEdgeRun g e' with ⟨g1, m?⟩
      rw [hrun] at hmsg
      simp only at hmsg
      subst hmsg
      simp only [replayEdges, hrun]
    · have hfirst : firstOffender g.nodes rest = some e := by
        simpa [firstOffender, hoff] using h
      have hok := Graph.addEdgeRun_not_offending g e'
        (by simpa using Bool.not_eq_true _ ▸ hoff)
      have hnodes := Graph.addEdgeRun_nodes g e'
      rcases hrun : Graph.addEdgeRun g e' with ⟨g1, m?⟩
      rw [hrun] at hok hnodes
      simp only at hok hnodes
      subst hok
      simp only [replayEdges, hrun]
      rw [← hnodes] at hfirst
      rw [show offendMsg g.nodes e = offendMsg g1.nodes e by rw [hnodes]]
      exact ih g1 hfirst

theorem firstOffender_exists (nodes : AList Node) (es : List Edge) (e : Edge)
    (he : e ∈ es) (hoff : isOffending nodes e = true) :
    ∃ ef, firstOffender nodes es = some ef ∧ isOffending nodes ef = true := by
  induction es with
  | nil => cases he
  | cons e' rest ih =>
    by_cases h' : isOffending nodes e' = true
    · exact ⟨e', by simp [firstOffender, h'], h'⟩
    · have hmem : e ∈ rest := by
        rcases List.mem_cons.mp he with h0 | h0
        · subst h0; exact absurd hoff h'
        · exact h0
      rcases ih hmem with ⟨ef, h1, h2⟩
      exact ⟨ef, by simpa [firstOffender, h'] using h1, h2⟩

theorem isOffending_ext (n1 n2 : AList Node)
    (h : ∀ k, alContains n1 k = alContains n2 k) (e : Edge) :
    isOffending n1 e = isOffending n2 e := by
  unfold isOffending
  rw [h, h]

theorem offendMsg_ext (n1 n2 : AList Node)
    (h : ∀ k, alContains n1 k = alContains n2 k) (e : Edge) :
    offendMsg n1 e = offendMsg n2 e := by
  unfold offendMsg
  rw [h]

theorem firstOffender_ext (n1 n2 : AList Node)
    (h : ∀ k, alContains n1 k = alContains n2 k) (es : List Edge) :
    firstOffender n1 es = firstOffender n2 es := by
  induction es with
  | nil => rfl
  | cons e rest ih =>
    unfold firstOffender
    rw [isOffending_ext n1 n2 h e, ih]

theorem offendMsg_cases (nodes : AList Node) (e : Edge) :
    offendMsg nodes e = "Source node does not exist." ∨
    offendMsg nodes e = "Target node does not exist." := by
  unfold offendMsg
  by_cases h : alContains nodes e.source
  · exact Or.inr (by rw [if_pos h])
  · exact Or.inl (by rw [if_neg h])

/-- The node dict of the graph that `build()` fills during its node-replay
loop contains exactly the staged node ids. -/
theorem applyOps_replay_contains (d : Bool) (ops : List BOp) (k : String) :
    alContains (replayNodes
        (Graph.empty (applyOps (GraphBuilder.empty d) ops).directed)
        (alValues (applyOps (GraphBuilder.empty d) ops).nodes)).nodes k
      = alContains (applyOps (GraphBuilder.empty d) ops).nodes k := by
  rw [replayNodes_contains]
  simp only [Graph.empty, alContains, Bool.false_or]
  exact values_any_id_eq_contains _ _
    (applyOps_nodesWF ops _ (fun p hp => by cases hp))

theorem HGraph.addEdgeRun_keepsNodes (g : HGraph) (e : HEdge) :
    (HGraph.addEdgeRun g e).1.nodes = g.nodes := by
  unfold HGraph.addEdgeRun
  by_cases hs : g.nodes.any (fun p => p.1 == e.source)
  · by_cases ht : g.nodes.any (fun p => p.1 == e.target)
    · simp [hs, ht]
    · simp [hs, ht]
  · simp [hs]

theorem HGraph.addEdgeRun_ok_edges (g : HGraph) (e : HEdge)
    (h : (HGraph.addEdgeRun g e).2 = none) :
    (HGraph.addEdgeRun g e).1.edges = alInsert g.edges e.id e := by
  unfold HGraph.addEdgeRun at *
  by_cases hs : g.nodes.any (fun p => p.1 == e.source)
  · by_cases ht : g.nodes.any (fun p => p.1 == e.target)
    · simp [hs, ht]
    · simp [hs, ht] at h
  · simp [hs] at h

theorem hfoldNodes_mem (ns : List HNode) (g0 : HGraph) (p : String × HNode)
    (h : p ∈ (ns.foldl HGraph.addNode g0).nodes) : p.2 ∈ ns ∨ p ∈ g0.nodes := by
  induction ns generalizing g0 with
  | nil => exact Or.inr h
  | cons n ns ih =>
    simp only [List.foldl_cons] at h
    rcases ih (g0.addNode n) h with h' | h'
    · exact Or.inl (List.mem_cons_of_mem n h')
    · rcases mem_alInsert _ _ _ _ h' with h'' | h''
      · exact Or.inl (by rw [show p.2 = n from congrArg Prod.snd h'']; exact List.mem_cons_self n ns)
      · exact Or.inr h''

theorem hfoldNodes_edges (ns : List HNode) (g0 : HGraph) :
    (ns.foldl HGraph.addNode g0).edges = g0.edges := by
  induction ns generalizing g0 with
  | nil => rfl
  | cons n ns ih => simp only [List.foldl_cons]; exact ih (g0.addNode n)

theorem hReplayEdges_nodes (es : List HEdge) (g g' : HGraph)
    (h : hReplayEdges g es = .ok g') : g'.nodes = g.nodes := by
  induction es generalizing g with
  | nil =>
    simp only [hReplayEdges] at h
    cases h
    rfl
  | cons e es ih =>
    rcases hrun : HGraph.addEdgeRun g e with ⟨g1, m?⟩
    cases m? with
    | some m => simp [hReplayEdges, hrun] at h
    | none =>
      simp only [hReplayEdges, hrun] at h
      have h1 := ih g1 h
      have h2 : g1.nodes = g.nodes := by
        have h0 := HGraph.addEdgeRun_keepsNodes g e
        rw [hrun] at h0
        exact h0
      rw [h1, h2]

theorem hReplayEdges_mem (es : List HEdge) (g g' : HGraph)
    (h : hReplayEdges g es = .ok g') (q : String × HEdge) (hq : q ∈ g'.edges) :
    q.2 ∈ es ∨ q ∈ g.edges := by
  induction es generalizing g with
  | nil =>
    simp only [hReplayEdges] at h
    cases h
    exact Or.inr hq
  | cons e es ih =>
    rcases hrun : HGraph.addEdgeRun g e with ⟨g1, m?⟩
    cases m? with
    | some m => simp [hReplayEdges, hrun] at h
    | none =>
      simp only [hReplayEdges, hrun] at h
      rcases ih g1 h with h' | h'
      · exact Or.inl (List.mem_cons_of_mem e h')
      · have hedges : g1.edges = alInsert g.edges e.id e := by
          have h0 := HGraph.addEdgeRun_ok_edges g e (by rw [hrun])
          rw [hrun] at h0
          exact h0
        rw [hedges] at h'
        rcases mem_alInsert _ _ _ _ h' with h'' | h''
        · exact Or.inl (by rw [show q.2 = e from congrArg Prod.snd h'']; exact List.mem_cons_self e es)
        · exact Or.inr h''

/-! ## Lemmas about the plugin registry. -/

theorem loadPlugins_loaded (env : Env) (st : PM) :
    (loadPlugins env st).loaded = true := by
  unfold loadPlugins
  by_cases h : st.loaded
  · rw [if_pos h]; exact h
  · rw [if_neg h]

theorem loadPlugins_of_loaded (env : Env) (st : PM) (h : st.loaded = true) :
    loadPlugins env st = st := by
  unfold loadPlugins
  rw [if_pos h]

theorem loadPlugins_idem (env : Env) (st : PM) :
    loadPlugins env (loadPlugins env st) = loadPlugins env st :=
  loadPlugins_of_loaded env _ (loadPlugins_loaded env st)

theorem runOp_eq (env : Env) (st : PM) (op : POp) :
    runOp env st op = loadPlugins env st := by
  cases op with
  | getDataSrc => rfl
  | getVis => rfl
  | getDataClass n => rfl
  | getVisClass n => rfl
  | instData n kw =>
    show (instantiateDataPlugin env st n kw).1 = loadPlugins env st
    unfold instantiateDataPlugin getDataPluginClass
    cases h : alGet (loadPlugins env st).dataPlugins n with
    | none => simp [h]
    | some c =>
      simp only [h]
      cases hk : c.ctor kw with
      | none => simp [hk]
      | some v => simp [hk]
  | getAllInfo => rfl

theorem loadPlugins_scanCount (env : Env) (st : PM) (h : st.loaded = false) :
    (loadPlugins env st).scanCount = st.scanCount + 1 := by
  unfold loadPlugins
  rw [if_neg (by simp [h])]

theorem runOps_of_loaded (env : Env) (st : PM) (h : st.loaded = true)
    (ops : List POp) : runOps env st ops = st := by
  induction ops with
  | nil => rfl
  | cons op ops ih =>
    show runOps env (runOp env st op) ops = st
    rw [runOp_eq, loadPlugins_of_loaded env st h]
    exact ih

theorem scanModule_single_dataPlugins (st : PM) (m : String) (c : PyClass) :
    (scanModule st m [c]).dataPlugins =
      (if c.isClass && !c.checkRaises && c.subDS && !c.isDSContract && !c.isAbstract
       then alInsert st.dataPlugins (m ++ "." ++ c.name) c
       else st.dataPlugins) := by
  unfold scanModule
  simp only [List.foldl_cons, List.foldl_nil]
  by_cases h1 : c.isClass <;> by_cases h2 : c.checkRaises <;>
    by_cases h3 : c.subDS <;> by_cases h4 : c.isDSContract <;>
    by_cases h5 : c.isAbstract <;> by_cases h6 : c.subVZ <;>
    by_cases h7 : c.isVZContract <;>
    simp [h1, h2, h3, h4, h5, h6, h7]

theorem scanModule_single_visPlugins (st : PM) (m : String) (c : PyClass) :
    (scanModule st m [c]).visPlugins =
      (if c.isClass && !c.checkRaises && c.subVZ && !c.isVZContract && !c.isAbstract
       then alInsert st.visPlugins (m ++ "." ++ c.name) c
       else st.visPlugins) := by
  unfold scanModule
  simp only [List.foldl_cons, List.foldl_nil]
  by_cases h1 : c.isClass <;> by_cases h2 : c.checkRaises <;>
    by_cases h3 : c.subDS <;> by_cases h4 : c.isDSContract <;>
    by_cases h5 : c.isAbstract <;> by_cases h6 : c.subVZ <;>
    by_cases h7 : c.isVZContract <;>
    simp [h1, h2, h3, h4, h5, h6, h7]

/-! ## Sample values used by concrete instantiations. -/

/-- A constructor that always succeeds, yielding instance `n`. -/
def ctorAlways (n : Nat) : AList String → Option Nat := fun _ => some n

/-- A constructor that raises for every argument set. -/
def ctorRaises : AList String → Option Nat := fun _ => none

/-- A concrete `DataSourcePlugin` subclass as the scanner sees it. -/
def jsonDSClass : PyClass :=
  { name := "JsonDataSource", isClass := true, subDS := true, subVZ := false,
    isDSContract := false, isVZContract := false, isAbstract := false,
    hasParse := true, hasGetName := true, hasRender := false,
    checkRaises := false, ctor := ctorAlways 1 }

/-- A concrete subclass whose constructor raises. -/
def failingDSClass : PyClass :=
  { jsonDSClass with name := "FailingSource", ctor := ctorRaises }

/-- A concrete class that implements `parse` and `get_name` but does not
inherit from `DataSourcePlugin`. -/
def duckDSClass : PyClass :=
  { name := "DuckSource", isClass := true, subDS := false, subVZ := false,
    isDSContract := false, isVZContract := false, isAbstract := false,
    hasParse := true, hasGetName := true, hasRender := false,
    checkRaises := false, ctor := ctorAlways 2 }

/-- A plugin directory with one package holding one module with two classes. -/
def envSample : Env :=
  { dirExists := true,
    folders := [{ name := "json_plugin", hasInit := true, importOk := true,
                  modules := [{ name := "core", importOk := true,
                                members := [jsonDSClass, failingDSClass] }] }] }

/-- The spec's concrete scenario as a staging sequence: nodes `n1`, `n2`
and the edge spec `id="e2"`, `source="n1"`, `target="missing"`. -/
def opsScenario : List BOp :=
  [BOp.node "n1" [], BOp.node "n2" [], BOp.edge "e2" "n1" "missing" []]

/-- A freshly initialized manager instance. -/
def pmFresh : PM :=
  { dataPlugins := [], visPlugins := [], loaded := false,
    initialized := true, scanCount := 0 }

/-- A manager instance state after discovery has run. -/
def pmLoadedSample : PM :=
  { dataPlugins := [("json_plugin.core.JsonDataSource", jsonDSClass)],
    visPlugins := [], loaded := true, initialized := true, scanCount := 1 }

/-! ## The claims. -/

/-- C1: `Graph.add_edge(edge)` raises a `ValueError` iff `edge.source` or
`edge.target` is not a key of the graph's node dict at the time of the call;
when it raises, the graph (in particular its edge dict) is unchanged, and
when it succeeds the edge is stored under `edge.id`. -/
theorem C1_add_edge_validation (g : Graph) (e : Edge) :
    ((Graph.addEdgeRun g e).2 ≠ none ↔
      (alContains g.nodes e.source = false ∨ alContains g.nodes e.target = false)) ∧
    ((Graph.addEdgeRun g e).2 ≠ none → (Graph.addEdgeRun g e).1 = g) ∧
    ((Graph.addEdgeRun g e).2 = none →
      (Graph.addEdgeRun g e).1 = { g with edges := alInsert g.edges e.id e } ∧
      alGet (Graph.addEdgeRun g e).1.edges e.id = some e) := by
  refine ⟨Graph.addEdgeRun_fail_iff g e, Graph.addEdgeRun_fail_state g e, ?_⟩
  intro h
  refine ⟨Graph.addEdgeRun_ok_state g e h, ?_⟩
  rw [Graph.addEdgeRun_ok_state g e h]
  exact alInsert_get_self _ _ _

theorem C1_add_edge_validation_witness :
    (Graph.addEdgeRun ⟨true, [("n1", ⟨"n1", []⟩)], []⟩
        ⟨"e1", "n1", "missing", []⟩).1 = ⟨true, [("n1", ⟨"n1", []⟩)], []⟩ ∧
    alGet (Graph.addEdgeRun ⟨true, [("n1", ⟨"n1", []⟩), ("n2", ⟨"n2", []⟩)], []⟩
        ⟨"e1", "n1", "n2", []⟩).1.edges "e1" = some ⟨"e1", "n1", "n2", []⟩ :=
  ⟨(C1_add_edge_validation _ _).2.1 (by decide),
   ((C1_add_edge_validation _ _).2.2 (by decide)).2⟩

/-- C3 counterexample: staging nodes `n1`, `n2` and the edge spec
`id="e2", source="n1", target="missing"` and building raises
`ValueError("Target node does not exist.")` — an error that does not
identify the offending edge id `"e2"` anywhere in its payload. -/
theorem C3_counterexample :
    GraphBuilder.build
        (GraphBuilder.addEdge
          (GraphBuilder.addNode
            (GraphBuilder.addNode (GraphBuilder.empty true) "n1" []) "n2" [])
          "e2" "n1" "missing" [])
      = .error "Target node does not exist." ∧
    strHasSub "Target node does not exist." "e2" = false :=
  ⟨rfl, by decide⟩

/-- C3 (amended): for every staging sequence, whenever some staged edge
references a node id that is not a staged node id, `build()` fails; the
`ValueError` is the one raised at the first offending staged edge (in
staging order), and its message names only which endpoint was missing
(`"Source node does not exist."` — checked first — else
`"Target node does not exist."`), never the offending edge's id; in the
concrete scenario (nodes `n1`, `n2` and edge spec `id="e2"`, `source="n1"`,
`target="missing"` staged) the raised message is
`"Target node does not exist."`, which does not contain `"e2"`. -/
theorem C3_build_fails_at_first_offender (d : Bool) (ops : List BOp) (e : Edge)
    (he : e ∈ alValues (applyOps (GraphBuilder.empty d) ops).edges)
    (hoff : isOffending (applyOps (GraphBuilder.empty d) ops).nodes e = true) :
    (∃ ef, firstOffender (applyOps (GraphBuilder.empty d) ops).nodes
        (alValues (applyOps (GraphBuilder.empty d) ops).edges) = some ef ∧
      GraphBuilder.build (applyOps (GraphBuilder.empty d) ops)
        = .error (offendMsg (applyOps (GraphBuilder.empty d) ops).nodes ef) ∧
      (offendMsg (applyOps (GraphBuilder.empty d) ops).nodes ef
          = "Source node does not exist." ∨
        offendMsg (applyOps (GraphBuilder.empty d) ops).nodes ef
          = "Target node does not exist.")) ∧
    GraphBuilder.build (applyOps (GraphBuilder.empty true) opsScenario)
      = .error "Target node does not exist." ∧
    strHasSub "Target node does not exist." "e2" = false := by
  have hkeys := applyOps_replay_contains d ops
  have hoff0 : isOffending (replayNodes
      (Graph.empty (applyOps (GraphBuilder.empty d) ops).directed)
      (alValues (applyOps (GraphBuilder.empty d) ops).nodes)).nodes e = true := by
    rw [isOffending_ext _ _ hkeys]
    exact hoff
  obtain ⟨ef, h1, _⟩ := firstOffender_exists _
    (alValues (applyOps (GraphBuilder.empty d) ops).edges) e he hoff0
  refine ⟨⟨ef, ?_, ?_, offendMsg_cases _ ef⟩, rfl, by decide⟩
  · rw [← firstOffender_ext _ _ hkeys
      (alValues (applyOps (GraphBuilder.empty d) ops).edges)]
    exact h1
  · have hbuild := replayEdges_error_at_first
      (alValues (applyOps (GraphBuilder.empty d) ops).edges)
      (replayNodes (Graph.empty (applyOps (GraphBuilder.empty d) ops).directed)
        (alValues (applyOps (GraphBuilder.empty d) ops).nodes)) ef h1
    rw [offendMsg_ext _ _ hkeys ef] at hbuild
    exact hbuild

theorem C3_build_fails_at_first_offender_witness :
    ∃ ef, firstOffender (applyOps (GraphBuilder.empty true) opsScenario).nodes
        (alValues (applyOps (GraphBuilder.empty true) opsScenario).edges) = some ef ∧
      GraphBuilder.build (applyOps (GraphBuilder.empty true) opsScenario)
        = .error (offendMsg (applyOps (GraphBuilder.empty true) opsScenario).nodes ef) ∧
      (offendMsg (applyOps (GraphBuilder.empty true) opsScenario).nodes ef
          = "Source node does not exist." ∨
        offendMsg (applyOps (GraphBuilder.empty true) opsScenario).nodes ef
          = "Target node does not exist.") :=
  (C3_build_fails_at_first_offender true opsScenario ⟨"e2", "n1", "missing", []⟩
    (by decide) (by decide)).1

/-- C4: `GraphBuilder.add_edge` stages unconditionally (never fails,
whatever the staged nodes are), and for every interleaved staging sequence,
`build()` succeeds iff every staged edge's `source` and `target` are among
the staged node ids. -/
theorem C4_deferred_validation (d : Bool) (ops : List BOp)
    (i s t : String) (props : AList String) :
    (alGet (GraphBuilder.addEdge (applyOps (GraphBuilder.empty d) ops)
        i s t props).edges i = some ⟨i, s, t, props⟩) ∧
    ((∃ g, (applyOps (GraphBuilder.empty d) ops).build = .ok g) ↔
      ∀ e ∈ alValues (applyOps (GraphBuilder.empty d) ops).edges,
        alContains (applyOps (GraphBuilder.empty d) ops).nodes e.source = true ∧
        alContains (applyOps (GraphBuilder.empty d) ops).nodes e.target = true) := by
  constructor
  · exact alInsert_get_self _ _ _
  · have hWF : nodesWF (applyOps (GraphBuilder.empty d) ops) :=
      applyOps_nodesWF ops _ (fun p hp => by cases hp)
    have hkeys : ∀ k,
        alContains (replayNodes (Graph.empty (applyOps (GraphBuilder.empty d) ops).directed)
          (alValues (applyOps (GraphBuilder.empty d) ops).nodes)).nodes k
        = alContains (applyOps (GraphBuilder.empty d) ops).nodes k := by
      intro k
      rw [replayNodes_contains]
      simp only [Graph.empty, alContains, Bool.false_or]
      exact values_any_id_eq_contains _ _ hWF
    unfold GraphBuilder.build
    rw [replayEdges_ok_iff]
    constructor
    · intro h e he
      have h' := h e he
      rw [hkeys e.source, hkeys e.target] at h'
      exact h'
    · intro h e he
      have h' := h e he
      rw [hkeys e.source, hkeys e.target]
      exact h'

theorem C4_deferred_validation_witness :
    ∃ g, (applyOps (GraphBuilder.empty true)
        [BOp.edge "e1" "n1" "n2" [], BOp.node "n1" [], BOp.node "n2" []]).build
      = .ok g :=
  (C4_deferred_validation true
      [BOp.edge "e1" "n1" "n2" [], BOp.node "n1" [], BOp.node "n2" []]
      "x" "y" "z" []).2.mpr (by decide)

/-- C6 counterexample: in a graph holding node `n1` and edge
`e1 : n1 -> n1`, re-inserting an edge under the already-present id `e1`
with target `n2` raises `ValueError` — so inserting under a duplicate id is
not always error-free. -/
theorem C6_counterexample :
    alContains (Graph.mk true [("n1", ⟨"n1", []⟩)]
        [("e1", ⟨"e1", "n1", "n1", []⟩)]).edges "e1" = true ∧
    (Graph.addEdgeRun
        (Graph.mk true [("n1", ⟨"n1", []⟩)] [("e1", ⟨"e1", "n1", "n1", []⟩)])
        ⟨"e1", "n1", "n2", []⟩).2 = some "Target node does not exist." := by
  decide

/-- C6 (amended): duplicate ids are never themselves an error:
`Graph.add_node` and both builder staging calls always succeed and silently
overwrite, keeping the key set unchanged; `Graph.add_edge` still performs
its endpoint validation, but when the endpoints exist it likewise succeeds,
overwrites the entry under the duplicate id, and leaves the key set
unchanged. -/
theorem C6_duplicate_overwrite (g : Graph) (b : GraphBuilder) (n : Node)
    (e : Edge) (nid eid s t : String) (props : AList String)
    (hgn : alContains g.nodes n.id = true)
    (hge : alContains g.edges e.id = true)
    (hs : alContains g.nodes e.source = true)
    (ht : alContains g.nodes e.target = true)
    (hbn : alContains b.nodes nid = true)
    (hbe : alContains b.edges eid = true) :
    (alGet (Graph.addNode g n).nodes n.id = some n ∧
      alKeys (Graph.addNode g n).nodes = alKeys g.nodes) ∧
    ((Graph.addEdgeRun g e).2 = none ∧
      alGet (Graph.addEdgeRun g e).1.edges e.id = some e ∧
      alKeys (Graph.addEdgeRun g e).1.edges = alKeys g.edges) ∧
    (alGet (GraphBuilder.addNode b nid props).nodes nid = some ⟨nid, props⟩ ∧
      alKeys (GraphBuilder.addNode b nid props).nodes = alKeys b.nodes) ∧
    (alGet (GraphBuilder.addEdge b eid s t props).edges eid
        = some ⟨eid, s, t, props⟩ ∧
      alKeys (GraphBuilder.addEdge b eid s t props).edges = alKeys b.edges) := by
  have hok : (Graph.addEdgeRun g e).2 = none := by
    unfold Graph.addEdgeRun
    simp [hs, ht]
  refine ⟨⟨alInsert_get_self _ _ _, alInsert_keys_of_contains _ _ _ hgn⟩,
    ⟨hok, ?_, ?_⟩,
    ⟨alInsert_get_self _ _ _, alInsert_keys_of_contains _ _ _ hbn⟩,
    ⟨alInsert_get_self _ _ _, alInsert_keys_of_contains _ _ _ hbe⟩⟩
  · rw [Graph.addEdgeRun_ok_state g e hok]
    exact alInsert_get_self _ _ _
  · rw [Graph.addEdgeRun_ok_state g e hok]
    exact alInsert_keys_of_contains _ _ _ hge

theorem C6_duplicate_overwrite_witness :
    alGet (Graph.addNode
        (Graph.mk true [("n1", ⟨"n1", []⟩)] [("e1", ⟨"e1", "n1", "n1", []⟩)])
        ⟨"n1", [("x", "1")]⟩).nodes "n1" = some ⟨"n1", [("x", "1")]⟩ :=
  (C6_duplicate_overwrite
      (Graph.mk true [("n1", ⟨"n1", []⟩)] [("e1", ⟨"e1", "n1", "n1", []⟩)])
      (GraphBuilder.addEdge (GraphBuilder.addNode (GraphBuilder.empty true) "a" []) "z" "a" "a" [])
      ⟨"n1", [("x", "1")]⟩ ⟨"e1", "n1", "n1", [("y", "2")]⟩
      "a" "z" "a" "a" []
      (by decide) (by decide) (by decide) (by decide) (by decide) (by decide)).1.1

/-- C7: when `build()` succeeds, building again on the same builder without
further staging succeeds too and yields an equivalent graph (same directed
flag, same node dict, same edge dict); `build()` leaves the builder's
staged state untouched. -/
theorem C7_rebuild (b : GraphBuilder) (g : Graph)
    (h : GraphBuilder.build b = .ok g) :
    (GraphBuilder.buildRun b).1 = b ∧
    ∃ g2, GraphBuilder.build (GraphBuilder.buildRun b).1 = .ok g2 ∧
      g2.directed = g.directed ∧ g2.nodes = g.nodes ∧ g2.edges = g.edges :=
  ⟨rfl, g, h, rfl, rfl, rfl⟩

theorem C7_rebuild_witness :
    (GraphBuilder.buildRun (GraphBuilder.addNode (GraphBuilder.empty true) "n1" [])).1
      = GraphBuilder.addNode (GraphBuilder.empty true) "n1" [] :=
  (C7_rebuild (GraphBuilder.addNode (GraphBuilder.empty true) "n1" [])
    ⟨true, [("n1", ⟨"n1", []⟩)], []⟩ rfl).1

/-- C9 counterexample: a builder with one staged node `n1`; the two graphs
returned by two successive `build()` calls both hold the very same `Node`
object (allocation `0` made at staging time), so mutating its attributes
through the first graph changes what is observable through the second. -/
theorem C9_counterexample :
    (HBuilder.addNode (HBuilder.empty true) [] "n1" [("name", "A")]).1.build
      = .ok (HGraph.mk true [("n1", ⟨"n1", 0⟩)] []) ∧
    alGet (HGraph.mk true [("n1", ⟨"n1", 0⟩)] []).nodes "n1" = some ⟨"n1", 0⟩ ∧
    HGraph.observeNode (HGraph.mk true [("n1", ⟨"n1", 0⟩)] [])
        (HBuilder.addNode (HBuilder.empty true) [] "n1" [("name", "A")]).2 "n1"
      = some [("name", "A")] ∧
    HGraph.observeNode (HGraph.mk true [("n1", ⟨"n1", 0⟩)] [])
        (HGraph.mutateNode (HGraph.mk true [("n1", ⟨"n1", 0⟩)] [])
          (HBuilder.addNode (HBuilder.empty true) [] "n1" [("name", "A")]).2
          "n1" "name" "B") "n1"
      = some [("name", "B")] :=
  ⟨rfl, rfl, rfl, rfl⟩

/-- C9 (amended): each `build()` call creates a fresh `Graph` with fresh
node/edge dicts, but the `Node` and `Edge` entities stored in them are the
staged objects themselves: every entity in a built graph is one of the
builder's staged objects, so two graphs built from the same builder share
all their entities (and mutating an entity through one graph is observable
through the other). -/
theorem C9_entities_shared (b : HBuilder) (g1 g2 : HGraph)
    (h1 : HBuilder.build b = .ok g1) (h2 : HBuilder.build b = .ok g2) :
    (∀ p : String × HNode, p ∈ g1.nodes → p ∈ g2.nodes ∧ p.2 ∈ alValues b.nodes) ∧
    (∀ q : String × HEdge, q ∈ g1.edges → q ∈ g2.edges ∧ q.2 ∈ alValues b.edges) := by
  have hgg : g1 = g2 := by
    rw [h1] at h2
    exact Except.ok.inj h2
  subst hgg
  unfold HBuilder.build at h1
  constructor
  · intro p hp
    refine ⟨hp, ?_⟩
    have hn := hReplayEdges_nodes _ _ _ h1
    have hp' := hp
    rw [hn] at hp'
    rcases hfoldNodes_mem _ _ p hp' with h' | h'
    · exact h'
    · exact absurd h' (List.not_mem_nil p)
  · intro q hq
    refine ⟨hq, ?_⟩
    rcases hReplayEdges_mem _ _ _ h1 q hq with h' | h'
    · exact h'
    · rw [hfoldNodes_edges] at h'
      exact absurd h' (List.not_mem_nil q)

theorem C9_entities_shared_witness :
    ("n1", (⟨"n1", 0⟩ : HNode)) ∈ (HGraph.mk true [("n1", ⟨"n1", 0⟩)] []).nodes ∧
    (⟨"n1", 0⟩ : HNode) ∈
      alValues (HBuilder.addNode (HBuilder.empty true) [] "n1" [("name", "A")]).1.nodes :=
  (C9_entities_shared
      (HBuilder.addNode (HBuilder.empty true) [] "n1" [("name", "A")]).1
      (HGraph.mk true [("n1", ⟨"n1", 0⟩)] [])
      (HGraph.mk true [("n1", ⟨"n1", 0⟩)] []) rfl rfl).1
    ("n1", ⟨"n1", 0⟩) (List.mem_singleton.mpr rfl)

/-- C2: the first registry operation of any kind marks the registry loaded
and is the only one that can run the filesystem scan (at most one scan ever
happens per call, exactly one when the registry was not yet loaded); every
operation after it leaves the state completely unchanged — no rescan — and
the registries it returns are the cached ones, so repeated calls yield
identical key sets. -/
theorem C2_idempotent_discovery (env : Env) (st : PM) (op op' : POp) :
    (runOp env st op).loaded = true ∧
    runOp env (runOp env st op) op' = runOp env st op ∧
    (runOp env st op).scanCount ≤ st.scanCount + 1 ∧
    (st.loaded = false → (runOp env st op).scanCount = st.scanCount + 1) ∧
    (∀ ops : List POp, runOps env (runOp env st op) ops = runOp env st op) ∧
    (getDataSourcePlugins env (runOp env st op)).2 = (getDataSourcePlugins env st).2 ∧
    (getVisualizerPlugins env (runOp env st op)).2 = (getVisualizerPlugins env st).2 := by
  simp only [runOp_eq]
  refine ⟨loadPlugins_loaded env st, loadPlugins_idem env st, ?_, ?_,
    (fun ops => runOps_of_loaded env _ (loadPlugins_loaded env st) ops), ?_, ?_⟩
  · by_cases h : st.loaded
    · rw [loadPlugins_of_loaded env st h]
      exact Nat.le_succ _
    · rw [loadPlugins_scanCount env st (by simpa using h)]
  · intro h
    exact loadPlugins_scanCount env st h
  · show (loadPlugins env (loadPlugins env st)).dataPlugins = (loadPlugins env st).dataPlugins
    rw [loadPlugins_idem]
  · show (loadPlugins env (loadPlugins env st)).visPlugins = (loadPlugins env st).visPlugins
    rw [loadPlugins_idem]

theorem C2_idempotent_discovery_witness :
    (runOp envSample pmFresh POp.getDataSrc).scanCount = pmFresh.scanCount + 1 :=
  (C2_idempotent_discovery envSample pmFresh POp.getDataSrc POp.getVis).2.2.2.1 rfl

/-- The spec's registration criterion in its own words: a type satisfies
the DataSource capability purely by implementing its methods (`parse` and
`get_name`) with matching semantics, must not be the contract definition
itself, and must be concretely instantiable (not abstract).  Stated for
comparison with what the scanner actually does. -/
def specStructuralDS (c : PyClass) : Bool :=
  c.isClass && c.hasParse && c.hasGetName && !c.isDSContract && !c.isAbstract

/-- C5 counterexample: a concrete, non-abstract class implementing `parse`
and `get_name` but not inheriting from `DataSourcePlugin` conforms
structurally, yet `_scan_module` registers nothing: registration is decided
by `issubclass`, not by structural conformance. -/
theorem C5_counterexample :
    specStructuralDS duckDSClass = true ∧
    (scanModule pmFresh "mod" [duckDSClass]).dataPlugins = [] ∧
    (scanModule pmFresh "mod" [duckDSClass]).visPlugins = [] :=
  ⟨rfl, rfl, rfl⟩

/-- C5 (amended): discovery registers a scanned member (under the key
`<module>.<ClassName>`) iff it is a class whose `issubclass` checks did not
raise, it nominally inherits from the capability's abstract base class, it
is not that base class itself, and it is not abstract — nominal subclassing
rather than structural conformance; likewise, independently, for the
visualizer capability. -/
theorem C5_nominal_registration (st : PM) (m : String) (c : PyClass)
    (hd : alContains st.dataPlugins (m ++ "." ++ c.name) = false)
    (hv : alContains st.visPlugins (m ++ "." ++ c.name) = false) :
    (alContains (scanModule st m [c]).dataPlugins (m ++ "." ++ c.name) =
      (c.isClass && !c.checkRaises && c.subDS && !c.isDSContract && !c.isAbstract)) ∧
    (alContains (scanModule st m [c]).visPlugins (m ++ "." ++ c.name) =
      (c.isClass && !c.checkRaises && c.subVZ && !c.isVZContract && !c.isAbstract)) := by
  constructor
  · rw [scanModule_single_dataPlugins]
    by_cases h : (c.isClass && !c.checkRaises && c.subDS && !c.isDSContract && !c.isAbstract) = true
    · rw [if_pos h, h, alInsert_contains, hd]
      simp
    · rw [if_neg h, hd]
      simp only [Bool.not_eq_true] at h
      rw [h]
  · rw [scanModule_single_visPlugins]
    by_cases h : (c.isClass && !c.checkRaises && c.subVZ && !c.isVZContract && !c.isAbstract) = true
    · rw [if_pos h, h, alInsert_contains, hv]
      simp
    · rw [if_neg h, hv]
      simp only [Bool.not_eq_true] at h
      rw [h]

theorem C5_nominal_registration_witness :
    (alContains (scanModule pmFresh "mod" [jsonDSClass]).dataPlugins
        ("mod" ++ "." ++ jsonDSClass.name) =
      (jsonDSClass.isClass && !jsonDSClass.checkRaises && jsonDSClass.subDS &&
        !jsonDSClass.isDSContract && !jsonDSClass.isAbstract)) ∧
    (alContains (scanModule pmFresh "mod" [jsonDSClass]).visPlugins
        ("mod" ++ "." ++ jsonDSClass.name) =
      (jsonDSClass.isClass && !jsonDSClass.checkRaises && jsonDSClass.subVZ &&
        !jsonDSClass.isVZContract && !jsonDSClass.isAbstract)) :=
  C5_nominal_registration pmFresh "mod" jsonDSClass rfl rfl

/-- C8: `instantiate_data_plugin` never propagates an exception: an unknown
key yields `none`, a constructor that raises yields `none`, and a
successful construction yields the instance; from a `none` result alone the
two failure causes are indistinguishable (both concrete scenarios below —
unknown key, raising constructor — return `none`). -/
theorem C8_instantiate_no_propagation (env : Env) (st : PM) (name : String)
    (kwargs : AList String) :
    ((alGet (loadPlugins env st).dataPlugins name = none →
        (instantiateDataPlugin env st name kwargs).2 = none) ∧
      (∀ c, alGet (loadPlugins env st).dataPlugins name = some c →
        ((c.ctor kwargs = none → (instantiateDataPlugin env st name kwargs).2 = none) ∧
          (∀ v, c.ctor kwargs = some v →
            (instantiateDataPlugin env st name kwargs).2 = some v)))) ∧
    ((instantiateDataPlugin envSample pmFresh "unknown.Key" []).2 = none ∧
      (instantiateDataPlugin envSample pmFresh "json_plugin.core.FailingSource" []).2 = none) := by
  refine ⟨⟨?_, ?_⟩, rfl, rfl⟩
  · intro h
    unfold instantiateDataPlugin getDataPluginClass
    simp [h]
  · intro c hc
    constructor
    · intro hk
      unfold instantiateDataPlugin getDataPluginClass
      simp [hc, hk]
    · intro v hv
      unfold instantiateDataPlugin getDataPluginClass
      simp [hc, hv]

theorem C8_instantiate_no_propagation_witness :
    (instantiateDataPlugin envSample pmFresh "unknown.Key" []).2 = none :=
  (C8_instantiate_no_propagation envSample pmFresh "unknown.Key" []).1.1 rfl

/-- C10: `PluginManager()` always yields the same single instance, and any
construction after the first is a complete no-op on the registry state:
`__new__` returns the saved `_instance` and `__init__` bails out on the
`_initialized` flag, so registries and the loaded flag survive repeated
construction untouched. -/
theorem C10_singleton_construct (cs : PMClass)
    (h : ∀ r obj, cs.inst = some (r, obj) → obj.initialized = true) :
    pmConstruct (pmConstruct cs).1 = pmConstruct cs ∧
    (∀ r obj, cs.inst = some (r, obj) → pmConstruct cs = (cs, r, obj)) := by
  cases cs with
  | mk inst =>
    cases inst with
    | none =>
      constructor
      · simp [pmConstruct, pmInit, pmNewObj]
      · intro r obj hro
        cases hro
    | some p =>
      rcases p with ⟨r0, obj0⟩
      have hinit : obj0.initialized = true := h r0 obj0 rfl
      constructor
      · simp [pmConstruct, pmInit, hinit]
      · intro r obj hro
        have hr : r0 = r ∧ obj0 = obj := by
          have := Option.some.inj hro
          exact ⟨congrArg Prod.fst this, congrArg Prod.snd this⟩
        rcases hr with ⟨hr1, hr2⟩
        subst hr1
        subst hr2
        simp [pmConstruct, pmInit, hinit]

theorem C10_singleton_construct_witness :
    pmConstruct ⟨some (0, pmLoadedSample)⟩ = (⟨some (0, pmLoadedSample)⟩, 0, pmLoadedSample) :=
  (C10_singleton_construct ⟨some (0, pmLoadedSample)⟩
      (fun r obj hro => by
        cases Option.some.inj hro
        rfl)).2
    0 pmLoadedSample rfl

end SokGraph
